import Mathlib

/-!
Shallow embedding of the GrowAssignment stock-app core: the JavaScript
value model needed by its validators, the Alpha Vantage request client
(`ApiService.makeRequest`), the response validators (`validateStockData`,
`validateTopGainersResponse`), the stock-overview cache
(`stockApiService.fetchStockOverview`), the hybrid search combination
(`fetchSearchResults`), the watchlist handlers (`handleAddWatchlist`,
`handleToggle`) and the movers-fetch hook (`useStockData` + the screen's
`renderContent`), together with theorems settling the frozen claims.
-/

namespace GrowAssignment

/-- JS numbers, as classified by the code's `isNaN` checks: NaN, the two
infinities, or a finite value (modelled exactly as a rational). -/
inductive JsNum where
  | nan
  | posInf
  | negInf
  | finite (q : ℚ)
deriving DecidableEq, Repr

/-- JSON-shaped JavaScript values as the validators see them: `undefined`
is the result of a missing property access. -/
inductive JsValue where
  | undefined
  | null
  | bool (b : Bool)
  | num (x : JsNum)
  | str (s : String)
  | arr (elems : List JsValue)
  | obj (fields : List (String × JsValue))

/-- JS truthiness (`!v` tests): `undefined`, `null`, `false`, `0`, `NaN`
and the empty string are falsy; objects and arrays are always truthy. -/
def jsTruthy : JsValue → Bool
  | .undefined => false
  | .null => false
  | .bool b => b
  | .num .nan => false
  | .num (.finite q) => decide (q ≠ 0)
  | .num _ => true
  | .str s => decide (s ≠ "")
  | .arr _ => true
  | .obj _ => true

/-- JS `typeof`: note `typeof null` and `typeof` of an array are both
`"object"`. -/
def jsTypeof : JsValue → String
  | .undefined => "undefined"
  | .null => "object"
  | .bool _ => "boolean"
  | .num _ => "number"
  | .str _ => "string"
  | .arr _ => "object"
  | .obj _ => "object"

/-- Property access `v[key]`: `undefined` when the property is missing or
the value is not an object. -/
def getField (v : JsValue) (key : String) : JsValue :=
  match v with
  | .obj fields =>
    match fields.lookup key with
    | some w => w
    | none => .undefined
  | _ => .undefined

/-- Tests whether a value is exactly `undefined` (the code's
`!== undefined` guards). -/
def isUndefined : JsValue → Bool
  | .undefined => true
  | _ => false

/-- The string content of a string value (used after a `typeof`
string guard). -/
def asString : JsValue → String
  | .str s => s
  | _ => ""

/-- Numeric value of a decimal digit character. -/
def digitVal (c : Char) : Nat := c.toNat - '0'.toNat

/-- Value of a big-endian digit string. -/
def digitsToNat (ds : List Char) : Nat :=
  ds.foldl (fun acc c => acc * 10 + digitVal c) 0

/-- Whitespace characters skipped by JS `parseFloat`. -/
def jsWhitespace (c : Char) : Bool :=
  c == ' ' || c == '\t' || c == '\n' || c == '\r' || c == '\x0b' || c == '\x0c'

/-- Body of `parseFloat` after an optional sign: an `Infinity` literal, or
the longest decimal-literal prefix (integer digits, optional fraction,
optional exponent); no digits at all yields NaN. -/
def parseFloatAfterSign (cs : List Char) (neg : Bool) : JsNum :=
  if "Infinity".toList.isPrefixOf cs then
    if neg then .negInf else .posInf
  else
    let intDigits := cs.takeWhile Char.isDigit
    let rest₁ := cs.dropWhile Char.isDigit
    let fracDigits :=
      match rest₁ with
      | '.' :: t => t.takeWhile Char.isDigit
      | _ => []
    let rest₂ :=
      match rest₁ with
      | '.' :: t => t.dropWhile Char.isDigit
      | _ => rest₁
    if intDigits.isEmpty && fracDigits.isEmpty then .nan
    else
      let mantissa : ℚ :=
        (digitsToNat intDigits : ℚ) +
          (digitsToNat fracDigits : ℚ) / ((10 : ℚ) ^ fracDigits.length)
      let expVal : Int :=
        match rest₂ with
        | e :: t =>
          if e == 'e' || e == 'E' then
            match t with
            | '+' :: t₂ =>
              let ds := t₂.takeWhile Char.isDigit
              if ds.isEmpty then 0 else (digitsToNat ds : Int)
            | '-' :: t₂ =>
              let ds := t₂.takeWhile Char.isDigit
              if ds.isEmpty then 0 else -(digitsToNat ds : Int)
            | _ =>
              let ds := t.takeWhile Char.isDigit
              if ds.isEmpty then 0 else (digitsToNat ds : Int)
          else 0
        | [] => 0
      let q := mantissa * (10 : ℚ) ^ expVal
      .finite (if neg then -q else q)

/-- JS `parseFloat` on a string: skip leading whitespace, optional sign,
then the longest float-literal prefix; NaN if none. -/
def jsParseFloat (s : String) : JsNum :=
  match s.toList.dropWhile jsWhitespace with
  | '+' :: t => parseFloatAfterSign t false
  | '-' :: t => parseFloatAfterSign t true
  | cs => parseFloatAfterSign cs false

/-- Decimal rendering of a rational whose denominator divides a power of
ten (every JS-realizable number is of this form); other rationals fall
back to a fraction rendering that JS values never hit. -/
def ratToString (q : ℚ) : String :=
  let sign := if q < 0 then "-" else ""
  let n := q.num.natAbs
  let d := q.den
  match (List.range 40).filter (fun k => (n * 10 ^ k) % d == 0) with
  | [] => sign ++ toString n ++ "/" ++ toString d
  | k :: _ =>
    let scaled := n * 10 ^ k / d
    if k == 0 then sign ++ Nat.repr scaled
    else
      let fracStr := Nat.repr (scaled % 10 ^ k)
      let padded := (List.replicate (k - fracStr.length) '0').asString ++ fracStr
      sign ++ Nat.repr (scaled / 10 ^ k) ++ "." ++ padded

/-- JS `ToString` of a number. -/
def jsNumToString : JsNum → String
  | .nan => "NaN"
  | .posInf => "Infinity"
  | .negInf => "-Infinity"
  | .finite q => ratToString q

mutual

/-- JS `ToString` coercion: arrays join their elements with commas,
plain objects render as `[object Object]`. -/
def jsToString : JsValue → String
  | .undefined => "undefined"
  | .null => "null"
  | .bool b => if b then "true" else "false"
  | .num x => jsNumToString x
  | .str s => s
  | .arr xs => String.intercalate "," (jsToStringList xs)
  | .obj _ => "[object Object]"

/-- JS `ToString` of every element of a list of values. -/
def jsToStringList : List JsValue → List String
  | [] => []
  | v :: vs => jsToString v :: jsToStringList vs

end

/-- JS `parseFloat` applied to an arbitrary value: numbers pass through
(`ToString` round-trips doubles), everything else is coerced to a string
first. -/
def jsParseFloatValue (v : JsValue) : JsNum :=
  match v with
  | .num x => x
  | .str s => jsParseFloat s
  | v => jsParseFloat (jsToString v)

/-- JS `isNaN` on a parse result. -/
def jsIsNaN (x : JsNum) : Bool := x == .nan

/-- JS `String.prototype.includes`: substring containment. -/
def jsIncludes (s sub : String) : Bool := decide (sub.toList <:+: s.toList)

/-- JS `String.prototype.trim`: strips leading and trailing
whitespace. -/
def jsTrim (s : String) : String :=
  (((s.toList.dropWhile jsWhitespace).reverse.dropWhile jsWhitespace).reverse).asString

/-- JS `String.prototype.toLowerCase` on ASCII content. -/
def jsToLower (s : String) : String := (s.toList.map Char.toLower).asString

/-! ## Response validation (`src/services/api.ts`, unnamed part_006) -/

/-- Per-item acceptance test of `validateStockData`: the entry must be a
truthy object, its `ticker` a truthy string that is non-blank after
trimming, its `price` truthy with a non-NaN `parseFloat`, and
`change_amount` / `change_percentage`, when defined, must have non-NaN
`parseFloat` results. -/
def validStockItem (item : JsValue) : Bool :=
  if !jsTruthy item || jsTypeof item != "object" then false
  else if !jsTruthy (getField item "ticker")
      || jsTypeof (getField item "ticker") != "string"
      || jsTrim (asString (getField item "ticker")) == "" then false
  else if !jsTruthy (getField item "price")
      || jsIsNaN (jsParseFloatValue (getField item "price")) then false
  else if !isUndefined (getField item "change_amount")
      && jsIsNaN (jsParseFloatValue (getField item "change_amount")) then false
  else if !isUndefined (getField item "change_percentage")
      && jsIsNaN (jsParseFloatValue (getField item "change_percentage")) then false
  else true

/-- `validateStockData`: a non-array input yields `[]`, an array is
filtered by `validStockItem`. -/
def validateStockData (data : JsValue) : List JsValue :=
  match data with
  | .arr items => items.filter validStockItem
  | _ => []

/-- Validated movers payload (`TopGainersResponse`). -/
structure TopGainersResponse where
  top_gainers : List JsValue
  top_losers : List JsValue
  last_updated_utc : Option JsValue

/-- `validateTopGainersResponse`: `null` for falsy or non-object payloads
and for payloads carrying either provider sentinel field; otherwise the
two movers lists are validated (a falsy or absent list becomes `[]`). -/
def validateTopGainersResponse (data : JsValue) : Option TopGainersResponse :=
  if !jsTruthy data || jsTypeof data != "object" then none
  else if jsTruthy (getField data "Error Message") || jsTruthy (getField data "Note") then none
  else some
    { top_gainers :=
        if jsTruthy (getField data "top_gainers") then
          validateStockData (getField data "top_gainers")
        else []
      top_losers :=
        if jsTruthy (getField data "top_losers") then
          validateStockData (getField data "top_losers")
        else []
      last_updated_utc :=
        if jsTruthy (getField data "last_updated_utc") then
          some (getField data "last_updated_utc")
        else none }

/-! ## Request client (`ApiService.makeRequest`, unnamed part_006) -/

/-- API_CONFIG.TIMEOUT: the fixed request timeout in milliseconds. -/
def API_CONFIG_TIMEOUT : Nat := 10000

/-- API_CONFIG.RETRY_ATTEMPTS. -/
def API_CONFIG_RETRY_ATTEMPTS : Nat := 3

/-- API_CONFIG.RETRY_DELAY, the linear-backoff base in milliseconds. -/
def API_CONFIG_RETRY_DELAY : Nat := 1000

/-- Thrown JS error: `name` distinguishes the abort case
(`'AbortError'`). -/
structure JsError where
  name : String
  message : String
deriving DecidableEq, Repr

/-- Outcome of one `fetch` attempt as `makeRequest` observes it: a
non-2xx response, a timeout-triggered abort, a rejection with some error,
or a 2xx response with a parsed JSON body. -/
inductive FetchOutcome where
  | httpError (status : Nat)
  | abortTimeout
  | networkError (name message : String)
  | success (data : JsValue)

/-- Result of the `try` block of one attempt of `makeRequest`: a non-ok
response throws `HTTP error! status: N`; an abort surfaces as an
`AbortError`; a 2xx body carrying a sentinel field (`Error Message` or
`Note`) throws an error whose message is the embedded value. -/
def attemptResult : FetchOutcome → Except JsError JsValue
  | .httpError status => .error ⟨"Error", "HTTP error! status: " ++ Nat.repr status⟩
  | .abortTimeout => .error ⟨"AbortError", "Aborted"⟩
  | .networkError name message => .error ⟨name, message⟩
  | .success data =>
    if jsTruthy (getField data "Error Message") then
      .error ⟨"Error", jsToString (getField data "Error Message")⟩
    else if jsTruthy (getField data "Note") then
      .error ⟨"Error", jsToString (getField data "Note")⟩
    else .ok data

/-- Retry test of `makeRequest`'s catch block: the error message must
mention `network` or `timeout`. -/
def transientRetry (e : JsError) : Bool :=
  jsIncludes e.message "network" || jsIncludes e.message "timeout"

/-- Observable trace of a `makeRequest` call: the final result, the
backoff delays awaited (in order), and the number of `fetch` calls
performed. -/
structure ReqTrace where
  result : Except JsError JsValue
  delays : List Nat
  numFetches : Nat

/-- `ApiService.makeRequest`: one attempt per recursion level
(`outcomes n` is what the `n`-th `fetch` does). An `AbortError` is
rethrown as `Request timeout` with no retry; other errors are retried
while `retryCount < RETRY_ATTEMPTS` and the message mentions `network` or
`timeout`, after a delay of `RETRY_DELAY * (retryCount + 1)`. -/
def makeRequest (outcomes : Nat → FetchOutcome) (retryCount : Nat) : ReqTrace :=
  match attemptResult (outcomes retryCount) with
  | .ok data => ⟨.ok data, [], 1⟩
  | .error err =>
    if err.name = "AbortError" then ⟨.error ⟨"Error", "Request timeout"⟩, [], 1⟩
    else if h : retryCount < API_CONFIG_RETRY_ATTEMPTS ∧ transientRetry err = true then
      let t := makeRequest outcomes (retryCount + 1)
      ⟨t.result, API_CONFIG_RETRY_DELAY * (retryCount + 1) :: t.delays, t.numFetches + 1⟩
    else ⟨.error err, [], 1⟩
termination_by API_CONFIG_RETRY_ATTEMPTS - retryCount
decreasing_by
  have := h.1
  simp only [API_CONFIG_RETRY_ATTEMPTS] at *
  omega

/-! ## Stock-overview cache (`stockApiService`, ExploreScreen.tsx) -/

/-- Outcome of the plain `fetch` inside the screen-level `fetchData`
helper (no abort controller on this path). -/
inductive OverviewOutcome where
  | httpError (status : Nat)
  | networkError (message : String)
  | success (data : JsValue)

/-- ExploreScreen's `fetchData(symbol)`: non-ok responses and sentinel
payloads throw, and every error is rewrapped with the
`Failed to fetch stock overview: ` prefix. -/
def fetchDataOverview : OverviewOutcome → Except String JsValue
  | .httpError status =>
    .error ("Failed to fetch stock overview: HTTP error! status: " ++ Nat.repr status)
  | .networkError message =>
    .error ("Failed to fetch stock overview: " ++ message)
  | .success data =>
    if jsTruthy (getField data "Error Message") || jsTruthy (getField data "Note") then
      .error ("Failed to fetch stock overview: " ++
        jsToString (if jsTruthy (getField data "Error Message") then
          getField data "Error Message" else getField data "Note"))
    else .ok data

/-- Result of one `stockApiService.fetchStockOverview` call: the value
returned to the caller, the cache afterwards, and how many network
fetches were performed (0 on a cache hit, 1 otherwise). -/
structure OverviewCallResult where
  returned : Except String JsValue
  cacheAfter : List (String × JsValue)
  fetches : Nat

/-- `stockApiService.fetchStockOverview`: under key
`overview_<symbol>`, a cache hit returns the stored payload without
fetching; a miss fetches, stores the result only on success, and
propagates a failure with the cache unchanged. -/
def fetchStockOverview (cache : List (String × JsValue)) (symbol : String)
    (outcome : OverviewOutcome) : OverviewCallResult :=
  let cacheKey := "overview_" ++ symbol
  match cache.lookup cacheKey with
  | some d => ⟨.ok d, cache, 0⟩
  | none =>
    match fetchDataOverview outcome with
    | .ok d => ⟨.ok d, (cacheKey, d) :: cache, 1⟩
    | .error e => ⟨.error e, cache, 1⟩

/-! ## Hybrid search (`fetchSearchResults`, ExploreScreen.tsx) -/

/-- Local mover entry as ExploreScreen holds it. -/
structure StockItemTS where
  ticker : String
  price : String
deriving DecidableEq, Repr

/-- Source tag of a hybrid search row. -/
inductive SearchSource where
  | gainer
  | loser
  | search
deriving DecidableEq, Repr

/-- Hybrid search row: local rows carry a price, remote rows do not. -/
structure HybridSearchResult where
  symbol : String
  name : String
  price : Option String
  source : SearchSource
deriving DecidableEq, Repr

/-- Combination step of `fetchSearchResults`: local gainer matches, local
loser matches, then the remote `bestMatches` rows (given as
symbol/name pairs) whose symbol was not already seen locally. -/
def fetchSearchResultsCombine (topGainers topLosers : List StockItemTS)
    (query : String) (apiMatches : List (String × String)) : List HybridSearchResult :=
  let lowerQuery := jsToLower query
  let gainerMatches :=
    (topGainers.filter (fun item => jsIncludes (jsToLower item.ticker) lowerQuery)).map
      (fun item => ⟨item.ticker, "", some item.price, .gainer⟩)
  let loserMatches :=
    (topLosers.filter (fun item => jsIncludes (jsToLower item.ticker) lowerQuery)).map
      (fun item => ⟨item.ticker, "", some item.price, .loser⟩)
  let apiResults : List HybridSearchResult :=
    apiMatches.map (fun m => ⟨m.1, m.2, none, .search⟩)
  let combined := gainerMatches ++ loserMatches
  let seen := combined.map (fun item => item.symbol)
  let filteredApiResults := apiResults.filter (fun item => !(seen.contains item.symbol))
  combined ++ filteredApiResults

/-- Modelled from the claim's words, for comparison with
`fetchSearchResultsCombine`: first the top-gainer entries whose ticker
contains the query case-insensitively (source `gainer`, local price),
then the analogous top-loser matches (source `loser`), then the remote
matches whose symbol does not occur among the local matches (source
`search`, no price); each segment in its source list's order. -/
def hybridSearchSpec (topGainers topLosers : List StockItemTS)
    (query : String) (apiMatches : List (String × String)) : List HybridSearchResult :=
  let matchesQuery := fun (t : String) => jsIncludes (jsToLower t) (jsToLower query)
  let gainerSegment :=
    (topGainers.filter (fun item => matchesQuery item.ticker)).map
      (fun item => ⟨item.ticker, "", some item.price, SearchSource.gainer⟩)
  let loserSegment :=
    (topLosers.filter (fun item => matchesQuery item.ticker)).map
      (fun item => ⟨item.ticker, "", some item.price, SearchSource.loser⟩)
  let localSymbols :=
    (topGainers.filter (fun item => matchesQuery item.ticker)).map StockItemTS.ticker ++
      (topLosers.filter (fun item => matchesQuery item.ticker)).map StockItemTS.ticker
  let searchSegment :=
    (apiMatches.filter (fun m => !(localSymbols.contains m.1))).map
      (fun m => ⟨m.1, m.2, none, SearchSource.search⟩)
  gainerSegment ++ loserSegment ++ searchSegment

/-! ## Watchlists (`AddToWatchlistModal`, unnamed part_001) -/

/-- Persisted watchlist record. -/
structure Watchlist where
  name : String
  stocks : List String
deriving DecidableEq, Repr

/-- `handleAddWatchlist`: a blank (trim-empty) name or an already-present
trimmed name is a silent no-op; otherwise `{name: trimmed, stocks: []}`
is appended. -/
def handleAddWatchlist (watchlists : List Watchlist) (newName : String) : List Watchlist :=
  if jsTrim newName = "" then watchlists
  else if watchlists.any (fun wl => wl.name == jsTrim newName) then watchlists
  else watchlists ++ [⟨jsTrim newName, []⟩]

/-- Per-entry callback of `handleToggle`: a watchlist with another name
is returned unchanged; in the matching watchlist the symbol is removed
when present (`filter`) and appended when absent. -/
def toggleEntry (name symbol : String) (wl : Watchlist) : Watchlist :=
  if wl.name != name then wl
  else
    { wl with stocks :=
        if wl.stocks.contains symbol then wl.stocks.filter (fun s => s != symbol)
        else wl.stocks ++ [symbol] }

/-- `handleToggle`: maps `toggleEntry` over the persisted collection. -/
def handleToggle (watchlists : List Watchlist) (name symbol : String) : List Watchlist :=
  watchlists.map (toggleEntry name symbol)

/-! ## Movers hook and screen rendering (`useStockData.ts`, unnamed part_002) -/

/-- State of the `useStockData` hook. -/
structure HookState (α : Type) where
  data : List α
  loading : Bool
  refreshing : Bool
  error : Option String

/-- Initial hook state. -/
def initialHookState (α : Type) : HookState α :=
  { data := [], loading := true, refreshing := false, error := none }

/-- One completed `fetchData` call of `useStockData`: on success the data
is stored and `error` becomes the screen's empty-state message exactly
when the list is empty; on failure the data is cleared and `error`
becomes the failure message. -/
def fetchDataStep {α : Type} (prev : HookState α)
    (outcome : Except String (List α)) (emptyStateMessage : String) : HookState α :=
  match outcome with
  | .ok data =>
    { prev with
        data := data
        loading := false
        refreshing := false
        error := if data.isEmpty then some emptyStateMessage else none }
  | .error message =>
    { prev with
        data := []
        loading := false
        refreshing := false
        error := some message }

/-- What `renderContent` of the movers screens shows. -/
inductive Rendered where
  | loadingState
  | errorState (message : String)
  | emptyState
  | stockGrid
deriving DecidableEq, Repr

/-- `renderContent`: loading wins, then a truthy (non-empty) error string
shows the error view, then an empty list shows the empty view, else the
grid. -/
def renderContent {α : Type} (s : HookState α) : Rendered :=
  if s.loading then .loadingState
  else
    match s.error with
    | some e => if e = "" then (if s.data.isEmpty then .emptyState else .stockGrid)
                else .errorState e
    | none => if s.data.isEmpty then .emptyState else .stockGrid

/-! ## Claim-side predicates and concrete fixtures -/

/-- Tests whether a value is a plain object. -/
def isJsObject : JsValue → Bool
  | .obj _ => true
  | _ => false

/-- Tests whether a JS number is finite (neither NaN nor infinite). -/
def jsIsFinite : JsNum → Bool
  | .finite _ => true
  | _ => false

/-- Modelled from the claim's words: an entry passes when it is an object
with a non-empty string ticker, a price that parses as a number, and
`change_amount` / `change_percentage` that, when present, parse as finite
numbers. -/
def c6ClaimKeeps (item : JsValue) : Bool :=
  isJsObject item &&
  (match getField item "ticker" with | .str s => s != "" | _ => false) &&
  !jsIsNaN (jsParseFloatValue (getField item "price")) &&
  (isUndefined (getField item "change_amount")
    || jsIsFinite (jsParseFloatValue (getField item "change_amount"))) &&
  (isUndefined (getField item "change_percentage")
    || jsIsFinite (jsParseFloatValue (getField item "change_percentage")))

/-- Amended per-item acceptance, matching the code: an object whose
ticker is a string that is non-empty after trimming, whose price is
truthy and `parseFloat`s to a non-NaN number, and whose `change_amount`
and `change_percentage`, when defined, `parseFloat` to non-NaN numbers
(infinite values accepted). -/
def c6AmendedKeeps (item : JsValue) : Bool :=
  isJsObject item &&
  (match getField item "ticker" with | .str s => jsTrim s != "" | _ => false) &&
  jsTruthy (getField item "price") &&
  !jsIsNaN (jsParseFloatValue (getField item "price")) &&
  (isUndefined (getField item "change_amount")
    || !jsIsNaN (jsParseFloatValue (getField item "change_amount"))) &&
  (isUndefined (getField item "change_percentage")
    || !jsIsNaN (jsParseFloatValue (getField item "change_percentage")))

/-- Movers entry whose `change_amount` parses to Infinity. -/
def infinityItem : JsValue :=
  .obj [("ticker", .str "AAPL"), ("price", .str "1"), ("change_amount", .str "Infinity")]

/-- Sentinel-only payload whose embedded message happens to mention the
word `network`. -/
def sentinelNetworkPayload : JsValue :=
  .obj [("Note", .str "please check your network")]

/-- Sentinel-only payload modelled on the provider's rate-limit note. -/
def sentinelRateLimitPayload : JsValue :=
  .obj [("Note", .str "Thank you for using Alpha Vantage! Our standard API rate limit is 25 requests per day.")]

/-- Outcome stream that always yields the `network`-mentioning sentinel
payload. -/
def sentinelOutcomes : Nat → FetchOutcome := fun _ => .success sentinelNetworkPayload

/-- Outcome stream that always yields the rate-limit sentinel payload. -/
def rateLimitOutcomes : Nat → FetchOutcome := fun _ => .success sentinelRateLimitPayload

/-- Outcome stream where every attempt hits the timeout abort. -/
def abortOutcomes : Nat → FetchOutcome := fun _ => .abortTimeout

/-- Outcome stream where every attempt gets an HTTP 404. -/
def http404Outcomes : Nat → FetchOutcome := fun _ => .httpError 404

/-! ## Helper lemmas for the request client -/

lemma makeRequest_ok {outcomes : Nat → FetchOutcome} {retryCount : Nat} {data : JsValue}
    (hatt : attemptResult (outcomes retryCount) = .ok data) :
    makeRequest outcomes retryCount = ⟨.ok data, [], 1⟩ := by
  rw [makeRequest.eq_def, hatt]

lemma makeRequest_abort {outcomes : Nat → FetchOutcome} {retryCount : Nat} {err : JsError}
    (hatt : attemptResult (outcomes retryCount) = .error err)
    (hname : err.name = "AbortError") :
    makeRequest outcomes retryCount = ⟨.error ⟨"Error", "Request timeout"⟩, [], 1⟩ := by
  rw [makeRequest.eq_def, hatt]
  simp [hname]

lemma makeRequest_retry {outcomes : Nat → FetchOutcome} {retryCount : Nat} {err : JsError}
    (hatt : attemptResult (outcomes retryCount) = .error err)
    (hname : err.name ≠ "AbortError")
    (hr : retryCount < API_CONFIG_RETRY_ATTEMPTS)
    (htr : transientRetry err = true) :
    makeRequest outcomes retryCount =
      ⟨(makeRequest outcomes (retryCount + 1)).result,
       API_CONFIG_RETRY_DELAY * (retryCount + 1) :: (makeRequest outcomes (retryCount + 1)).delays,
       (makeRequest outcomes (retryCount + 1)).numFetches + 1⟩ := by
  rw [makeRequest.eq_def, hatt]
  simp [hname, hr, htr]

lemma makeRequest_noRetry {outcomes : Nat → FetchOutcome} {retryCount : Nat} {err : JsError}
    (hatt : attemptResult (outcomes retryCount) = .error err)
    (hname : err.name ≠ "AbortError")
    (hfail : ¬(retryCount < API_CONFIG_RETRY_ATTEMPTS ∧ transientRetry err = true)) :
    makeRequest outcomes retryCount = ⟨.error err, [], 1⟩ := by
  rw [makeRequest.eq_def, hatt]
  simp only [hname, if_false]
  rw [dif_neg hfail]

lemma makeRequest_numFetches_pos (outcomes : Nat → FetchOutcome) (retryCount : Nat) :
    1 ≤ (makeRequest outcomes retryCount).numFetches := by
  induction retryCount using makeRequest.induct outcomes with
  | case1 x data hatt => rw [makeRequest_ok hatt]
  | case2 x err hatt hname => rw [makeRequest_abort hatt hname]
  | case3 x err hatt hname h ih =>
    rw [makeRequest_retry hatt hname h.1 h.2]
    simp
  | case4 x err hatt hname h => rw [makeRequest_noRetry hatt hname h]

lemma makeRequest_numFetches_le (outcomes : Nat → FetchOutcome) (retryCount : Nat) :
    (makeRequest outcomes retryCount).numFetches ≤
      1 + (API_CONFIG_RETRY_ATTEMPTS - retryCount) := by
  induction retryCount using makeRequest.induct outcomes with
  | case1 x data hatt => rw [makeRequest_ok hatt]; simp
  | case2 x err hatt hname => rw [makeRequest_abort hatt hname]; simp
  | case3 x err hatt hname h ih =>
    rw [makeRequest_retry hatt hname h.1 h.2]
    have hx := h.1
    simp only [API_CONFIG_RETRY_ATTEMPTS] at hx ih ⊢
    omega
  | case4 x err hatt hname h => rw [makeRequest_noRetry hatt hname h]; simp

lemma makeRequest_delays_shape (outcomes : Nat → FetchOutcome) (retryCount : Nat) :
    (makeRequest outcomes retryCount).delays =
      (List.range ((makeRequest outcomes retryCount).numFetches - 1)).map
        (fun i => API_CONFIG_RETRY_DELAY * (retryCount + i + 1)) := by
  induction retryCount using makeRequest.induct outcomes with
  | case1 x data hatt => rw [makeRequest_ok hatt]; rfl
  | case2 x err hatt hname => rw [makeRequest_abort hatt hname]; rfl
  | case3 x err hatt hname h ih =>
    rw [makeRequest_retry hatt hname h.1 h.2]
    have hpos := makeRequest_numFetches_pos outcomes (x + 1)
    obtain ⟨k, hk⟩ : ∃ k, (makeRequest outcomes (x + 1)).numFetches = k + 1 :=
      ⟨(makeRequest outcomes (x + 1)).numFetches - 1, by omega⟩
    simp only [ih, hk, Nat.add_sub_cancel, List.range_succ_eq_map, List.map_cons,
      List.map_map, List.cons.injEq]
    refine ⟨by ring_nf, ?_⟩
    apply List.map_congr_left
    intro i _
    simp only [Function.comp_apply, Nat.succ_eq_add_one]
    ring
  | case4 x err hatt hname h => rw [makeRequest_noRetry hatt hname h]; rfl

lemma digitChar_isDigit : ∀ m : Nat, m < 10 → (Nat.digitChar m).isDigit = true := by decide

lemma toDigitsCore_isDigit :
    ∀ (fuel n : Nat) (ds : List Char), (∀ c ∈ ds, c.isDigit = true) →
      ∀ c ∈ Nat.toDigitsCore 10 fuel n ds, c.isDigit = true := by
  intro fuel
  induction fuel with
  | zero => intro n ds hds; simpa [Nat.toDigitsCore] using hds
  | succ fuel ih =>
    intro n ds hds c hc
    rw [Nat.toDigitsCore] at hc
    by_cases h : n / 10 = 0
    · simp only [h, if_true] at hc
      rcases List.mem_cons.mp hc with rfl | hmem
      · exact digitChar_isDigit _ (Nat.mod_lt _ (by omega))
      · exact hds _ hmem
    · simp only [h, if_false] at hc
      refine ih (n / 10) _ ?_ c hc
      intro d hd
      rcases List.mem_cons.mp hd with rfl | hmem
      · exact digitChar_isDigit _ (Nat.mod_lt _ (by omega))
      · exact hds _ hmem

lemma natRepr_isDigit (n : Nat) : ∀ c ∈ (Nat.repr n).toList, c.isDigit = true := by
  intro c hc
  have h : (Nat.repr n).toList = Nat.toDigits 10 n := rfl
  rw [h, Nat.toDigits] at hc
  exact toDigitsCore_isDigit _ _ [] (by simp) c hc

lemma http_message_not_transient (status : Nat) :
    transientRetry ⟨"Error", "HTTP error! status: " ++ Nat.repr status⟩ = false := by
  have hmem : ∀ c ∈ ("HTTP error! status: " ++ Nat.repr status).toList,
      c ∈ ("HTTP error! status: ").toList ∨ c.isDigit = true := by
    intro c hc
    have h : ("HTTP error! status: " ++ Nat.repr status).toList =
        ("HTTP error! status: ").toList ++ (Nat.repr status).toList := by
      simp [String.toList, String.data_append]
    rw [h, List.mem_append] at hc
    rcases hc with h | h
    · exact Or.inl h
    · exact Or.inr (natRepr_isDigit _ _ h)
  simp only [transientRetry, Bool.or_eq_false_iff, jsIncludes, decide_eq_false_iff_not]
  constructor
  · intro hinf
    have hw : 'w' ∈ ("HTTP error! status: " ++ Nat.repr status).toList :=
      hinf.subset (by decide)
    rcases hmem _ hw with h | h
    · revert h; decide
    · revert h; decide
  · intro hinf
    have hw : 'm' ∈ ("HTTP error! status: " ++ Nat.repr status).toList :=
      hinf.subset (by decide)
    rcases hmem _ hw with h | h
    · revert h; decide
    · revert h; decide

/-! ## Claims about the request client (C3, C4, C7) -/

/-- C3, counterexample: when the 10-second timer fires and aborts the
first attempt, `makeRequest` performs exactly one fetch, awaits no
backoff delay, and immediately fails with `Request timeout` — the
timeout failure is not retried, contrary to the claim. -/
theorem claim_C3_counterexample :
    (makeRequest abortOutcomes 0).result = .error ⟨"Error", "Request timeout"⟩ ∧
    (makeRequest abortOutcomes 0).numFetches = 1 ∧
    (makeRequest abortOutcomes 0).delays = [] := by
  have hatt : attemptResult (abortOutcomes 0) = .error ⟨"AbortError", "Aborted"⟩ := rfl
  rw [makeRequest_abort hatt rfl]
  exact ⟨rfl, rfl, rfl⟩

/-- C3, amended: every request carries the fixed 10,000 ms timeout, and
on expiry the aborted attempt fails with a `Request timeout` error that
propagates immediately — one fetch, no delay, no retry. -/
theorem claim_C3_amended :
    API_CONFIG_TIMEOUT = 10000 ∧
    ∀ (outcomes : Nat → FetchOutcome) (retryCount : Nat),
      outcomes retryCount = .abortTimeout →
      makeRequest outcomes retryCount = ⟨.error ⟨"Error", "Request timeout"⟩, [], 1⟩ := by
  refine ⟨rfl, ?_⟩
  intro outcomes r hout
  exact makeRequest_abort (by rw [hout]; rfl) rfl

/-- C3 witness: the amended statement instantiated on a first-attempt
timeout. -/
theorem claim_C3_witness :
    abortOutcomes 0 = .abortTimeout ∧
    makeRequest abortOutcomes 0 = ⟨.error ⟨"Error", "Request timeout"⟩, [], 1⟩ :=
  ⟨rfl, claim_C3_amended.2 abortOutcomes 0 rfl⟩

/-- C4: a request performs at most `1 + RETRY_ATTEMPTS` fetches (at most
3 retries), the delay before the `attempt`-th retry is
`attempt * RETRY_DELAY` (linear backoff), and a non-2xx HTTP status
fails at once with an error message carrying the status code — no retry,
no delay. -/
theorem claim_C4 (outcomes : Nat → FetchOutcome) :
    (makeRequest outcomes 0).numFetches ≤ 1 + API_CONFIG_RETRY_ATTEMPTS ∧
    (makeRequest outcomes 0).delays =
      (List.range ((makeRequest outcomes 0).numFetches - 1)).map
        (fun i => API_CONFIG_RETRY_DELAY * (i + 1)) ∧
    (∀ (retryCount status : Nat), outcomes retryCount = .httpError status →
      makeRequest outcomes retryCount =
        ⟨.error ⟨"Error", "HTTP error! status: " ++ Nat.repr status⟩, [], 1⟩) := by
  refine ⟨by simpa using makeRequest_numFetches_le outcomes 0, ?_, ?_⟩
  · have h := makeRequest_delays_shape outcomes 0
    simpa using h
  · intro r status hout
    have hatt : attemptResult (outcomes r) =
        .error ⟨"Error", "HTTP error! status: " ++ Nat.repr status⟩ := by
      rw [hout]; rfl
    refine makeRequest_noRetry hatt (by intro h; simp at h) ?_
    rintro ⟨-, htr⟩
    rw [http_message_not_transient] at htr
    exact Bool.false_ne_true htr

/-- C4 witness: an HTTP 404 on the first attempt fails immediately with
the status in the message. -/
theorem claim_C4_witness :
    http404Outcomes 0 = .httpError 404 ∧
    makeRequest http404Outcomes 0 =
      ⟨.error ⟨"Error", "HTTP error! status: 404"⟩, [], 1⟩ :=
  ⟨rfl, (claim_C4 http404Outcomes).2.2 0 404 rfl⟩

/-- C7, counterexample: a sentinel payload whose embedded message
mentions `network` is retried three times (delays 1000, 2000, 3000 ms;
four fetches) before failing, contrary to the claim's `no automatic
retry`. -/
theorem claim_C7_counterexample :
    makeRequest sentinelOutcomes 0 =
      ⟨.error ⟨"Error", "please check your network"⟩, [1000, 2000, 3000], 4⟩ := by
  have hname : (⟨"Error", "please check your network"⟩ : JsError).name ≠ "AbortError" := by decide
  have htr : transientRetry ⟨"Error", "please check your network"⟩ = true := by decide
  have h3 : attemptResult (sentinelOutcomes 3) = .error ⟨"Error", "please check your network"⟩ := rfl
  have h2 : attemptResult (sentinelOutcomes 2) = .error ⟨"Error", "please check your network"⟩ := rfl
  have h1 : attemptResult (sentinelOutcomes 1) = .error ⟨"Error", "please check your network"⟩ := rfl
  have h0 : attemptResult (sentinelOutcomes 0) = .error ⟨"Error", "please check your network"⟩ := rfl
  have e3 := makeRequest_noRetry h3 hname (by rintro ⟨h, -⟩; revert h; decide)
  rw [makeRequest_retry h0 hname (by decide) htr, makeRequest_retry h1 hname (by decide) htr,
    makeRequest_retry h2 hname (by decide) htr, e3]
  rfl

/-- C7, amended: a payload carrying either sentinel field is rejected by
the validator even under HTTP 200, and the request fails with the
embedded message as its reason, with no automatic retry — unless that
embedded message itself mentions `network` or `timeout`, in which case
the generic transient-retry test matches it and it is retried. -/
theorem claim_C7_amended :
    (∀ data : JsValue,
      (jsTruthy (getField data "Error Message") || jsTruthy (getField data "Note")) = true →
      validateTopGainersResponse data = none) ∧
    (∀ (outcomes : Nat → FetchOutcome) (retryCount : Nat) (data : JsValue),
      outcomes retryCount = .success data →
      jsTruthy (getField data "Error Message") = true →
      transientRetry ⟨"Error", jsToString (getField data "Error Message")⟩ = false →
      makeRequest outcomes retryCount =
        ⟨.error ⟨"Error", jsToString (getField data "Error Message")⟩, [], 1⟩) ∧
    (∀ (outcomes : Nat → FetchOutcome) (retryCount : Nat) (data : JsValue),
      outcomes retryCount = .success data →
      jsTruthy (getField data "Error Message") = false →
      jsTruthy (getField data "Note") = true →
      transientRetry ⟨"Error", jsToString (getField data "Note")⟩ = false →
      makeRequest outcomes retryCount =
        ⟨.error ⟨"Error", jsToString (getField data "Note")⟩, [], 1⟩) := by
  refine ⟨?_, ?_, ?_⟩
  · intro data h
    cases data <;> simp_all [getField, validateTopGainersResponse, jsTruthy, jsTypeof]
  · intro o r data hout hem htr
    have hatt : attemptResult (o r) =
        .error ⟨"Error", jsToString (getField data "Error Message")⟩ := by
      rw [hout]; simp [attemptResult, hem]
    refine makeRequest_noRetry hatt (by intro h; simp at h) ?_
    rintro ⟨-, ht⟩
    rw [htr] at ht
    exact Bool.false_ne_true ht
  · intro o r data hout hem hnote htr
    have hatt : attemptResult (o r) =
        .error ⟨"Error", jsToString (getField data "Note")⟩ := by
      rw [hout]; simp [attemptResult, hem, hnote]
    refine makeRequest_noRetry hatt (by intro h; simp at h) ?_
    rintro ⟨-, ht⟩
    rw [htr] at ht
    exact Bool.false_ne_true ht

set_option maxRecDepth 4000 in
/-- C7 witness: the provider's rate-limit note is rejected by the
validator and fails the request at once with the literal message. -/
theorem claim_C7_witness :
    validateTopGainersResponse sentinelRateLimitPayload = none ∧
    makeRequest rateLimitOutcomes 0 =
      ⟨.error ⟨"Error",
        "Thank you for using Alpha Vantage! Our standard API rate limit is 25 requests per day."⟩,
       [], 1⟩ := by
  constructor
  · exact claim_C7_amended.1 sentinelRateLimitPayload (by decide)
  · exact claim_C7_amended.2.2 rateLimitOutcomes 0 sentinelRateLimitPayload rfl (by decide)
      (by decide) (by decide)

/-! ## Claim about the stock-overview cache (C2) -/

/-- C2: on a cold cache, a first overview fetch that succeeds performs
one network fetch, and the follow-up call returns the stored payload
with zero fetches; when the first fetch fails, nothing is stored under
the symbol's cache key and the next call fetches again. -/
theorem claim_C2 (cache : List (String × JsValue)) (symbol : String)
    (o₁ o₂ : OverviewOutcome)
    (hmiss : cache.lookup ("overview_" ++ symbol) = none) :
    (∀ d, fetchDataOverview o₁ = .ok d →
      (fetchStockOverview cache symbol o₁).returned = .ok d ∧
      (fetchStockOverview cache symbol o₁).fetches = 1 ∧
      (fetchStockOverview (fetchStockOverview cache symbol o₁).cacheAfter symbol o₂).returned
        = .ok d ∧
      (fetchStockOverview (fetchStockOverview cache symbol o₁).cacheAfter symbol o₂).fetches
        = 0) ∧
    (∀ e, fetchDataOverview o₁ = .error e →
      (fetchStockOverview cache symbol o₁).returned = .error e ∧
      (fetchStockOverview cache symbol o₁).cacheAfter = cache ∧
      (fetchStockOverview cache symbol o₁).cacheAfter.lookup ("overview_" ++ symbol) = none ∧
      (fetchStockOverview (fetchStockOverview cache symbol o₁).cacheAfter symbol o₂).fetches
        = 1) := by
  constructor
  · intro d hok
    simp only [fetchStockOverview, hmiss, hok]
    simp [List.lookup]
  · intro e herr
    simp only [fetchStockOverview, hmiss, herr]
    refine ⟨trivial, trivial, trivial, ?_⟩
    cases h2 : fetchDataOverview o₂ <;> simp [h2]

/-- Successful overview payload used as a concrete fixture. -/
def goodOverview : JsValue := .obj [("Symbol", .str "AAPL"), ("Name", .str "Apple Inc")]

/-- C2 witness: a cold-cache fetch for AAPL fetches once, and the second
call is served from the cache. -/
theorem claim_C2_witness :
    ([] : List (String × JsValue)).lookup ("overview_" ++ "AAPL") = none ∧
    fetchDataOverview (.success goodOverview) = .ok goodOverview ∧
    (fetchStockOverview [] "AAPL" (.success goodOverview)).fetches = 1 ∧
    (fetchStockOverview (fetchStockOverview [] "AAPL" (.success goodOverview)).cacheAfter
        "AAPL" (.success goodOverview)).returned = .ok goodOverview ∧
    (fetchStockOverview (fetchStockOverview [] "AAPL" (.success goodOverview)).cacheAfter
        "AAPL" (.success goodOverview)).fetches = 0 := by
  have h := (claim_C2 [] "AAPL" (.success goodOverview) (.success goodOverview) rfl).1
    goodOverview rfl
  exact ⟨rfl, rfl, h.2.1, h.2.2.1, h.2.2.2⟩

/-! ## Claims about the watchlist handlers (C8, C9) -/

/-- C8: `handleAddWatchlist` is a no-op on a blank name or an existing
(trimmed) name, otherwise appends `{name, stocks: []}`; it preserves
name uniqueness and is idempotent. -/
theorem claim_C8 (watchlists : List Watchlist) (n : String) :
    (jsTrim n = "" → handleAddWatchlist watchlists n = watchlists) ∧
    ((∃ wl ∈ watchlists, wl.name = jsTrim n) → handleAddWatchlist watchlists n = watchlists) ∧
    (jsTrim n ≠ "" → (∀ wl ∈ watchlists, wl.name ≠ jsTrim n) →
      handleAddWatchlist watchlists n = watchlists ++ [⟨jsTrim n, []⟩]) ∧
    ((watchlists.map Watchlist.name).Nodup →
      ((handleAddWatchlist watchlists n).map Watchlist.name).Nodup) ∧
    handleAddWatchlist (handleAddWatchlist watchlists n) n = handleAddWatchlist watchlists n := by
  refine ⟨?_, ?_, ?_, ?_, ?_⟩
  · intro h; simp [handleAddWatchlist, h]
  · rintro ⟨wl, hmem, hname⟩
    have hany : watchlists.any (fun wl => wl.name == jsTrim n) = true := by
      simp only [List.any_eq_true]
      exact ⟨wl, hmem, by simp [hname]⟩
    by_cases h : jsTrim n = ""
    · simp [handleAddWatchlist, h]
    · simp [handleAddWatchlist, h, hany]
  · intro h hnone
    have hany : watchlists.any (fun wl => wl.name == jsTrim n) = false := by
      simp only [List.any_eq_false]
      intro wl hmem
      simp [hnone wl hmem]
    simp [handleAddWatchlist, h, hany]
  · intro hnodup
    by_cases h : jsTrim n = ""
    · simpa [handleAddWatchlist, h] using hnodup
    · cases hany : watchlists.any (fun wl => wl.name == jsTrim n) with
      | true => simpa [handleAddWatchlist, h, hany] using hnodup
      | false =>
        have hnone : ∀ wl ∈ watchlists, wl.name ≠ jsTrim n := by
          have hall := List.any_eq_false.mp hany
          intro wl hmem heq
          have hw := hall wl hmem
          simp [heq] at hw
        simp only [handleAddWatchlist, h, hany, if_false, Bool.false_eq_true]
        rw [List.map_append, List.nodup_append]
        refine ⟨hnodup, List.nodup_singleton _, ?_⟩
        intro a ha hb
        simp only [List.map_cons, List.map_nil, List.mem_singleton] at hb
        subst hb
        rcases List.mem_map.mp ha with ⟨wl, hmem, hname⟩
        exact hnone wl hmem hname
  · by_cases h : jsTrim n = ""
    · simp [handleAddWatchlist, h]
    · cases hany : watchlists.any (fun wl => wl.name == jsTrim n) with
      | true => simp [handleAddWatchlist, h, hany]
      | false =>
        have h2 : (watchlists ++ [(⟨jsTrim n, []⟩ : Watchlist)]).any
            (fun wl => wl.name == jsTrim n) = true := by simp
        simp [handleAddWatchlist, h, hany, h2]

/-- C8 witness: an existing name and a blank name are no-ops, a fresh
name is appended with an empty stock list. -/
theorem claim_C8_witness :
    handleAddWatchlist [⟨"Tech", ["MSFT"]⟩] "Tech" = [⟨"Tech", ["MSFT"]⟩] ∧
    handleAddWatchlist [⟨"Tech", ["MSFT"]⟩] "   " = [⟨"Tech", ["MSFT"]⟩] ∧
    handleAddWatchlist [⟨"Tech", ["MSFT"]⟩] "Media" =
      [⟨"Tech", ["MSFT"]⟩, ⟨"Media", []⟩] := by
  refine ⟨(claim_C8 _ "Tech").2.1 ⟨⟨"Tech", ["MSFT"]⟩, by simp, by decide⟩,
    (claim_C8 _ "   ").1 (by decide), ?_⟩
  have h := (claim_C8 [⟨"Tech", ["MSFT"]⟩] "Media").2.2.1 (by decide) (by decide)
  simpa using h

lemma toggleEntry_name (name symbol : String) (wl : Watchlist) :
    (toggleEntry name symbol wl).name = wl.name := by
  unfold toggleEntry
  split <;> rfl

lemma contains_filter_ne (l : List String) (s : String) :
    (l.filter (fun x => x != s)).contains s = false := by
  simp

lemma contains_append_self (l : List String) (s : String) :
    (l ++ [s]).contains s = true := by
  simp

lemma toggleEntry_contains_involutive (name symbol : String) (wl : Watchlist) :
    (toggleEntry name symbol (toggleEntry name symbol wl)).stocks.contains symbol
      = wl.stocks.contains symbol := by
  by_cases hn : wl.name = name
  · by_cases hc : wl.stocks.contains symbol = true
    · simp only [toggleEntry, hn, bne_self_eq_false, if_false, Bool.false_eq_true, ite_false, hc,
        if_true]
      simp [contains_filter_ne]
    · simp only [toggleEntry, hn, bne_self_eq_false, if_false, Bool.false_eq_true, ite_false, hc]
      simp only [Bool.not_eq_true] at hc
      simp [hc, contains_append_self, contains_filter_ne]
  · have hbne : (wl.name != name) = true := by simp [hn]
    simp [toggleEntry, hbne]

lemma toggleEntry_nodup (name symbol : String) (wl : Watchlist)
    (h : wl.stocks.Nodup) : (toggleEntry name symbol wl).stocks.Nodup := by
  unfold toggleEntry
  split
  · exact h
  · split
    · exact h.filter _
    · next hc =>
      rw [List.nodup_append]
      refine ⟨h, List.nodup_singleton _, ?_⟩
      intro a ha hb
      simp only [List.mem_singleton] at hb
      subst hb
      rw [Bool.not_eq_true] at hc
      rw [← List.elem_iff (a := a)] at ha
      rw [List.contains] at hc
      rw [ha] at hc
      simp at hc

lemma toggleEntry_count (name symbol : String) (wl : Watchlist)
    (h : wl.name = name) :
    (toggleEntry name symbol wl).stocks.count symbol ≤ 1 := by
  simp only [toggleEntry, h, bne_self_eq_false, Bool.false_eq_true, if_false, ite_false]
  by_cases hc : wl.stocks.contains symbol = true
  · simp only [hc, if_true]
    have hnot : symbol ∉ wl.stocks.filter (fun x => x != symbol) := by
      intro hmem
      rcases List.mem_filter.mp hmem with ⟨-, hne⟩
      simp at hne
    simp [List.count_eq_zero.mpr hnot]
  · simp only [hc, Bool.false_eq_true, if_false, ite_false]
    rw [Bool.not_eq_true] at hc
    have hnot : symbol ∉ wl.stocks := by
      intro hmem
      rw [← List.elem_iff] at hmem
      rw [List.contains] at hc
      rw [hmem] at hc
      simp at hc
    rw [List.count_append]
    simp [List.count_eq_zero.mpr hnot]

/-- C9: toggling a symbol twice restores every watchlist's name and
membership state; toggling preserves duplicate-freeness of stock lists;
and in the targeted watchlist the symbol occurs at most once after a
toggle. -/
theorem claim_C9 (watchlists : List Watchlist) (name symbol : String) :
    ((handleToggle (handleToggle watchlists name symbol) name symbol).map
        (fun wl => (wl.name, wl.stocks.contains symbol)))
      = watchlists.map (fun wl => (wl.name, wl.stocks.contains symbol)) ∧
    ((∀ wl ∈ watchlists, wl.stocks.Nodup) →
      ∀ wl ∈ handleToggle watchlists name symbol, wl.stocks.Nodup) ∧
    (∀ wl ∈ handleToggle watchlists name symbol, wl.name = name →
      wl.stocks.count symbol ≤ 1) := by
  refine ⟨?_, ?_, ?_⟩
  · simp only [handleToggle, List.map_map]
    apply List.map_congr_left
    intro wl _
    simp only [Function.comp_apply]
    rw [toggleEntry_contains_involutive, toggleEntry_name, toggleEntry_name]
  · intro hall wl hmem
    rcases List.mem_map.mp hmem with ⟨wl₀, hmem₀, rfl⟩
    exact toggleEntry_nodup _ _ _ (hall wl₀ hmem₀)
  · intro wl hmem hname
    rcases List.mem_map.mp hmem with ⟨wl₀, hmem₀, rfl⟩
    rw [toggleEntry_name] at hname
    exact toggleEntry_count _ _ _ hname

/-- C9 witness: toggling AAPL twice on a singleton collection restores
membership, with duplicate-freeness along the way. -/
theorem claim_C9_witness :
    (handleToggle (handleToggle [⟨"Tech", ["MSFT"]⟩] "Tech" "AAPL") "Tech" "AAPL").map
        (fun wl => (wl.name, wl.stocks.contains "AAPL"))
      = [("Tech", false)] ∧
    (∀ wl ∈ handleToggle [⟨"Tech", ["MSFT"]⟩] "Tech" "AAPL", wl.stocks.Nodup) ∧
    (∀ wl ∈ handleToggle [⟨"Tech", ["MSFT"]⟩] "Tech" "AAPL", wl.name = "Tech" →
      wl.stocks.count "AAPL" ≤ 1) := by
  have h := claim_C9 [⟨"Tech", ["MSFT"]⟩] "Tech" "AAPL"
  exact ⟨h.1, h.2.1 (by decide), h.2.2⟩

/-! ## Claim about the movers screens' empty and error states (C5) -/

/-- C5, counterexample: a successful movers fetch with zero items is
rendered through the error-state view carrying the empty-state message,
not through the dedicated empty view — the error state does not arise
only on fetch failure. -/
theorem claim_C5_counterexample :
    renderContent (fetchDataStep (initialHookState Unit) (.ok [])
        "No top losers available at the moment")
      = .errorState "No top losers available at the moment" ∧
    renderContent (fetchDataStep (initialHookState Unit) (.ok [])
        "No top losers available at the moment")
      ≠ .emptyState := by
  constructor
  · rfl
  · decide

/-- C5, amended: a successful fetch with zero items stores the screen's
empty-state message in the hook's error field, so the screen renders the
error view with that message; a non-empty success renders the grid; a
failure renders the error view with the failure message; the dedicated
empty view renders only when data is empty with no recorded error. -/
theorem claim_C5_amended {α : Type} (prev : HookState α) (msg : String) (hmsg : msg ≠ "") :
    renderContent (fetchDataStep prev (.ok ([] : List α)) msg) = .errorState msg ∧
    (∀ d : List α, d ≠ [] → renderContent (fetchDataStep prev (.ok d) msg) = .stockGrid) ∧
    (∀ e : String, e ≠ "" → renderContent (fetchDataStep prev (.error e) msg) = .errorState e) ∧
    (∀ s : HookState α, s.loading = false → s.error = none → s.data = [] →
      renderContent s = .emptyState) := by
  refine ⟨?_, ?_, ?_, ?_⟩
  · simp [fetchDataStep, renderContent, hmsg]
  · intro d hd
    simp [fetchDataStep, renderContent, hd, List.isEmpty_iff]
  · intro e he
    simp [fetchDataStep, renderContent, he]
  · intro s hl he hd
    simp [renderContent, hl, he, hd]

/-- C5 witness: the amended statement instantiated on the gainers
screen's empty message, a failure message, and a one-element success. -/
theorem claim_C5_witness :
    renderContent (fetchDataStep (initialHookState Unit) (.ok [])
        "No top gainers available at the moment")
      = .errorState "No top gainers available at the moment" ∧
    renderContent (fetchDataStep (initialHookState Unit) (.error "Invalid response format")
        "No top gainers available at the moment")
      = .errorState "Invalid response format" ∧
    renderContent (fetchDataStep (initialHookState Unit) (.ok [()])
        "No top gainers available at the moment")
      = .stockGrid := by
  have h := claim_C5_amended (initialHookState Unit)
    "No top gainers available at the moment" (by decide)
  exact ⟨h.1, h.2.2.1 "Invalid response format" (by decide), h.2.1 [()] (by decide)⟩

/-! ## Claim about the hybrid search combination (C1) -/

/-- C1: for every non-empty query, the committed hybrid result list is
the spec's concatenation — case-insensitive gainer matches with local
prices first, then loser matches, then the remote rows whose symbol is
not among the local matches, each segment in its source order. -/
theorem claim_C1 (topGainers topLosers : List StockItemTS) (query : String)
    (apiMatches : List (String × String)) (hq : query ≠ "") :
    fetchSearchResultsCombine topGainers topLosers query apiMatches =
      hybridSearchSpec topGainers topLosers query apiMatches := by
  simp only [fetchSearchResultsCombine, hybridSearchSpec, List.map_append, List.map_map,
    List.filter_map, List.append_assoc, Function.comp]
  rfl

/-- C1 witness: the spec's AAPL scenario — the local gainer match with
its price precedes remote rows and the duplicate remote AAPL is
dropped. -/
theorem claim_C1_witness :
    ("AA" : String) ≠ "" ∧
    fetchSearchResultsCombine [⟨"AAPL", "190.00"⟩] [] "AA"
        [("AAPL", "Apple Inc"), ("AAON", "AAON Inc")] =
      hybridSearchSpec [⟨"AAPL", "190.00"⟩] [] "AA"
        [("AAPL", "Apple Inc"), ("AAON", "AAON Inc")] ∧
    fetchSearchResultsCombine [⟨"AAPL", "190.00"⟩] [] "AA"
        [("AAPL", "Apple Inc"), ("AAON", "AAON Inc")] =
      [⟨"AAPL", "", some "190.00", .gainer⟩, ⟨"AAON", "AAON Inc", none, .search⟩] := by
  refine ⟨by decide, claim_C1 [⟨"AAPL", "190.00"⟩] [] "AA" _ (by decide), ?_⟩
  decide

/-! ## Claims about the movers validator (C6, C10) -/

lemma validStockItem_eq_amended (item : JsValue) :
    validStockItem item = c6AmendedKeeps item := by
  cases item with
  | obj fields =>
    cases ht : getField (JsValue.obj fields) "ticker" with
    | str s =>
      have h1 : jsTruthy (JsValue.obj fields) = true := rfl
      have h2 : jsTypeof (JsValue.obj fields) = "object" := rfl
      have h3 : isJsObject (JsValue.obj fields) = true := rfl
      have h5 : jsTypeof (JsValue.str s) = "string" := rfl
      by_cases hs : s = ""
      · subst hs
        have h4 : jsTruthy (JsValue.str "") = false := rfl
        have h6 : jsTrim "" = "" := rfl
        simp [validStockItem, c6AmendedKeeps, ht, h1, h2, h3, h4, h5, h6]
      · have h4 : jsTruthy (JsValue.str s) = true := by simp [jsTruthy, hs]
        by_cases hT : jsTrim s = "" <;>
        cases hA : jsTruthy (getField (JsValue.obj fields) "price") <;>
        cases hB : jsIsNaN (jsParseFloatValue (getField (JsValue.obj fields) "price")) <;>
        cases hC : isUndefined (getField (JsValue.obj fields) "change_amount") <;>
        cases hD : jsIsNaN (jsParseFloatValue (getField (JsValue.obj fields) "change_amount")) <;>
        cases hE : isUndefined (getField (JsValue.obj fields) "change_percentage") <;>
        cases hF : jsIsNaN (jsParseFloatValue (getField (JsValue.obj fields) "change_percentage")) <;>
        simp [validStockItem, c6AmendedKeeps, asString, ht, h1, h2, h3, h4, h5,
          hT, hA, hB, hC, hD, hE, hF, bne]
    | undefined => simp [validStockItem, c6AmendedKeeps, ht, jsTruthy, jsTypeof, isJsObject]
    | null => simp [validStockItem, c6AmendedKeeps, ht, jsTruthy, jsTypeof, isJsObject]
    | bool b => simp [validStockItem, c6AmendedKeeps, ht, jsTruthy, jsTypeof, isJsObject]
    | num x => simp [validStockItem, c6AmendedKeeps, ht, jsTruthy, jsTypeof, isJsObject]
    | arr xs => simp [validStockItem, c6AmendedKeeps, ht, jsTruthy, jsTypeof, isJsObject]
    | obj ofs => simp [validStockItem, c6AmendedKeeps, ht, jsTruthy, jsTypeof, isJsObject]
  | undefined => rfl
  | null => rfl
  | bool b => cases b <;> rfl
  | num x => simp [validStockItem, c6AmendedKeeps, jsTruthy, jsTypeof, isJsObject]
  | str s => simp [validStockItem, c6AmendedKeeps, jsTruthy, jsTypeof, isJsObject]
  | arr xs => simp [validStockItem, c6AmendedKeeps, jsTruthy, jsTypeof, isJsObject, getField]

lemma validateStockData_eq_nil_of_not_arr (v : JsValue) (h : ∀ xs, v ≠ .arr xs) :
    validateStockData v = [] := by
  cases v <;> first | rfl | exact absurd rfl (h _)

/-- C6, counterexample: an entry whose `change_amount` is the string
`Infinity` parses to an infinite (non-finite) number, yet
`validateStockData` keeps it — the claim's `finite` requirement does not
hold of the code, which only rejects NaN. -/
theorem claim_C6_counterexample :
    validateStockData (.arr [infinityItem]) = [infinityItem] ∧
    c6ClaimKeeps infinityItem = false := by
  constructor
  · rfl
  · decide

/-- C6, amended: `validateStockData` keeps exactly the entries that are
objects whose ticker is a string non-empty after trimming, whose price
is truthy and `parseFloat`s to a non-NaN number, and whose
`change_amount` / `change_percentage`, when defined, `parseFloat` to
non-NaN numbers (infinite values accepted); any non-array input yields
the empty list. -/
theorem claim_C6_amended :
    (∀ items : List JsValue, validateStockData (.arr items) = items.filter c6AmendedKeeps) ∧
    (∀ v : JsValue, (∀ items, v ≠ .arr items) → validateStockData v = []) := by
  constructor
  · intro items
    simp only [validateStockData]
    exact List.filter_congr (fun item _ => validStockItem_eq_amended item)
  · exact validateStockData_eq_nil_of_not_arr

/-- C6 witness: the amended statement instantiated on the Infinity entry
and on a `null` input. -/
theorem claim_C6_witness :
    validateStockData (.arr [infinityItem]) = [infinityItem].filter c6AmendedKeeps ∧
    validateStockData .null = [] :=
  ⟨claim_C6_amended.1 [infinityItem],
   claim_C6_amended.2 .null (fun items h => JsValue.noConfusion h)⟩

/-- C10: response validation is total by construction; a falsy or
non-object payload yields `none`; and in every non-`none` result a
missing or non-array movers field has become the empty list (both movers
fields are lists by construction). -/
theorem claim_C10 (v : JsValue) :
    ((jsTruthy v = false ∨ jsTypeof v ≠ "object") → validateTopGainersResponse v = none) ∧
    (∀ r, validateTopGainersResponse v = some r →
      ((∀ xs, getField v "top_gainers" ≠ .arr xs) → r.top_gainers = []) ∧
      ((∀ xs, getField v "top_losers" ≠ .arr xs) → r.top_losers = [])) := by
  constructor
  · rintro (h | h)
    · simp [validateTopGainersResponse, h]
    · simp [validateTopGainersResponse, bne, h]
  · intro r hr
    simp only [validateTopGainersResponse] at hr
    split at hr
    · exact absurd hr (by simp)
    · split at hr
      · exact absurd hr (by simp)
      · rw [Option.some_inj] at hr
        subst hr
        constructor
        · intro hno
          simp only
          split
          · exact validateStockData_eq_nil_of_not_arr _ hno
          · rfl
        · intro hno
          simp only
          split
          · exact validateStockData_eq_nil_of_not_arr _ hno
          · rfl

/-- C10 witness: a string payload validates to `none`, and an object
whose `top_gainers` field is a non-array string validates to a result
with empty movers lists. -/
theorem claim_C10_witness :
    validateTopGainersResponse (.str "x") = none ∧
    validateTopGainersResponse (.obj [("top_gainers", .str "nope")]) = some ⟨[], [], none⟩ ∧
    (⟨[], [], none⟩ : TopGainersResponse).top_gainers = [] := by
  refine ⟨(claim_C10 (.str "x")).1 (Or.inr (by decide)), rfl, ?_⟩
  exact ((claim_C10 (.obj [("top_gainers", .str "nope")])).2 ⟨[], [], none⟩ rfl).1
    (fun xs h => JsValue.noConfusion h)

end GrowAssignment
